import Mathlib

/-!
Verification of the intent-resolution and safety-gated execution pipeline of
the arch-assist tool (src/arch_sim/rust/src/main.rs), as a shallow embedding.

Modeling conventions:
* Rust `&str` operations are embedded as Lean functions over `String`,
  computed through the underlying character list (`String.toList`), matching
  Rust semantics on the ASCII strings this program manipulates:
  `contains` is substring occurrence, `starts_with`/`ends_with` are
  character-prefix/suffix tests, `split_whitespace` splits on whitespace and
  drops empty pieces, `trim` strips whitespace from both ends.
* Network interaction (the two registry lookups and the chat-completion call)
  is embedded as explicit oracle parameters: `repoHit aurHit : String → Bool`
  stand for the results of `check_arch_repo`/`check_aur`, and the chat
  response (or transport failure) is passed as an `Except String ChatResponse`
  value.  The environment variable `OPENAI_API_KEY` is an `Option String`
  parameter.  Standard input for the confirmation prompt is a `String`
  parameter.  Process spawning (`run`) is an oracle
  `runO : String → Except AssistError Unit`; the execution engine is modeled
  by the list of commands it hands to `run` together with the error that
  aborted the batch, if any.  Terminal printing is omitted throughout.
-/

/-- Backtick character, the quote trimmed from LLM response lines. -/
def btChar : Char := Char.ofNat 96

/-- Boolean prefix test on character lists: `leadsWith pat l` is true iff
`pat` is an initial segment of `l`. -/
def leadsWith : List Char → List Char → Bool
  | [], _ => true
  | _ :: _, [] => false
  | p :: ps, c :: cs => p == c && leadsWith ps cs

/-- Boolean substring-occurrence test on character lists. -/
def occursIn (pat : List Char) : List Char → Bool
  | [] => pat.isEmpty
  | c :: cs => leadsWith pat (c :: cs) || occursIn pat cs

/-- Rust `str::starts_with` on strings. -/
def rStartsWith (s pat : String) : Bool := leadsWith pat.toList s.toList

/-- Rust `str::ends_with` on strings. -/
def rEndsWith (s pat : String) : Bool := leadsWith pat.toList.reverse s.toList.reverse

/-- Rust `str::contains` (substring occurrence) on strings. -/
def rContains (s pat : String) : Bool := occursIn pat.toList s.toList

/-- Rust `str::contains(char)`. -/
def rContainsChar (s : String) (c : Char) : Bool := s.toList.contains c

/-- Strip every leading and trailing character satisfying `p`. -/
def trimEndsBy (p : Char → Bool) (l : List Char) : List Char :=
  ((l.dropWhile p).reverse.dropWhile p).reverse

/-- Rust `str::trim` (whitespace stripped from both ends; this program only
trims ASCII whitespace in practice). -/
def rTrim (s : String) : String := String.mk (trimEndsBy (fun c => c.isWhitespace) s.toList)

/-- Rust `str::trim_matches('\x60')`: strip all leading and trailing backticks. -/
def trimBackticks (s : String) : String := String.mk (trimEndsBy (fun c => c == btChar) s.toList)

/-- Rust `str::to_lowercase` (ASCII lowering suffices for this program). -/
def rLower (s : String) : String := String.mk (s.toList.map Char.toLower)

/-- Rust `str::split_whitespace`: split on whitespace, dropping empty pieces. -/
def rSplitWs (s : String) : List String :=
  ((s.toList.splitOnP (fun c => c.isWhitespace)).map String.mk).filter (fun t => !(t == ""))

/-- First whitespace-delimited token of a string (empty when there is none),
modeling `cmd.split_whitespace().next().unwrap_or("")`. -/
def firstTok (s : String) : String := (rSplitWs s).headD ""

/-- Remaining tokens after the first, joined by single spaces and trimmed,
modeling `tokens.collect::<Vec<_>>().join(" ").trim().to_string()`. -/
def restTok (s : String) : String := rTrim (String.intercalate " " (rSplitWs s).tail)

/-- Rust `str::lines`: split on newline characters; every piece but the last
loses one trailing carriage return; a final empty piece (from a trailing
newline) is dropped, a final piece without terminator is kept as-is. -/
def rLines (s : String) : List String :=
  let parts := s.toList.splitOn '\n'
  let stripCR := fun (l : List Char) =>
    if l.getLast? == some '\r' then l.dropLast else l
  let body := (parts.dropLast.map stripCR).map String.mk
  match parts.getLast? with
  | none => body
  | some last => if last.isEmpty then body else body ++ [String.mk last]

/-- The error type of the tool (`enum AssistError`). -/
inductive AssistError where
  | Unsafe : String → AssistError
  | CommandFailed : String → AssistError
deriving DecidableEq

/-- Run-time policy flags (`struct ExecConfig`). -/
structure ExecConfig where
  dry_run : Bool
  auto : Bool
  offline : Bool
  yes : Bool
  prefer_paru : Bool
  no_sudo : Bool
  verbose : Bool
deriving DecidableEq

/-- A proposed command with its human-readable justification
(`struct Suggestion`). -/
structure Suggestion where
  cmd : String
  reason : String
deriving DecidableEq

/-- The fixed list of dangerous substrings scanned by the validator
(`const FORBIDDEN` in `fn validate`). -/
def FORBIDDEN : List String :=
  ["|", ">", "<", "&&", "||", ";", String.mk [btChar], "$(", "rm -rf", "mkfs", "dd ", " :"]

/-- The fixed leading-token allowlist used by `fn validate` (and duplicated in
`fn needs_launch_wrapper`). -/
def allowedPrograms : List String :=
  ["sudo", "pacman", "paru", "systemctl", "nmcli", "pactl", "bluetoothctl",
   "journalctl", "timedatectl", "echo", "launch"]

/-- The safety validator (`fn validate`): reject if any forbidden substring
occurs, then reject unless the first whitespace token is allowlisted. -/
def validate (cmd : String) : Except AssistError Unit :=
  match FORBIDDEN.find? (fun bad => rContains cmd bad) with
  | some _ => .error (.Unsafe cmd)
  | none =>
    if allowedPrograms.contains (firstTok cmd) then .ok ()
    else .error (.Unsafe cmd)

/-- Installer choice by config flags (`fn installer_for`). -/
def installer_for (pkg : String) (config : ExecConfig) : String :=
  if config.prefer_paru || rEndsWith pkg "-bin" then "paru"
  else if config.no_sudo then "pacman"
  else "sudo pacman"

/-- Append `--noconfirm` to package-tool commands when the `yes` flag is set
(`fn apply_pkg_flags`). -/
def apply_pkg_flags (cmd : String) (config : ExecConfig) : String :=
  if config.yes
      && (rStartsWith cmd "sudo pacman " || rStartsWith cmd "pacman " || rStartsWith cmd "paru ")
      && !(rContains cmd "--noconfirm") then
    cmd ++ " --noconfirm"
  else cmd

/-- Build an install suggestion (`fn install_cmd`). -/
def install_cmd (installer pkg : String) (config : ExecConfig) (reason : String) : Suggestion :=
  ⟨apply_pkg_flags (installer ++ " -S --needed " ++ pkg) config, reason⟩

/-- The resolver's classification of a package name (`enum PackageOrigin`). -/
inductive PackageOrigin where
  | Repo
  | Aur
  | Unknown
  | Offline
deriving DecidableEq

/-- Heuristic AUR classification (`fn is_probably_aur`). -/
def is_probably_aur (pkg : String) : Bool :=
  (["-bin", "-git", "-svn", "-hg"].any fun s => rEndsWith pkg s)
    || (["google-chrome", "brave-bin", "microsoft-edge-stable-bin",
         "visual-studio-code-bin", "wps-office", "slack-desktop", "zoom",
         "spotify"].contains pkg)

/-- The package origin resolver (`fn resolve_package`); the two registry
lookups `check_arch_repo`/`check_aur` are the oracles `repoHit`/`aurHit`. -/
def resolve_package (pkg : String) (config : ExecConfig)
    (repoHit aurHit : String → Bool) : PackageOrigin :=
  if config.offline then .Offline
  else if repoHit pkg then .Repo
  else if aurHit pkg then .Aur
  else .Unknown

/-- Build an install command through the resolver (`fn build_install_command`). -/
def build_install_command (pkg flags : String) (config : ExecConfig)
    (repoHit aurHit : String → Bool) : Option String :=
  match resolve_package pkg config repoHit aurHit with
  | .Repo =>
    some ((if config.no_sudo then "pacman" else "sudo pacman") ++ " " ++ flags ++ " " ++ pkg)
  | .Aur => some ("paru " ++ flags ++ " " ++ pkg)
  | .Unknown =>
    if is_probably_aur pkg then some ("paru " ++ flags ++ " " ++ pkg)
    else some ((if config.no_sudo then "pacman" else "sudo pacman") ++ " " ++ flags ++ " " ++ pkg)
  | .Offline => none

/-- The builtin intent translator (`fn builtin_translate`), a priority chain
of rules over the lowercased prompt.  In the source, a rule whose guard fails
falls through to the next check; that control flow is rendered as a chain of
conditionals whose conditions are the source guards. -/
def builtin_translate (prompt : String) (config : ExecConfig)
    (repoHit aurHit : String → Bool) : Option (List Suggestion) :=
  let lower := rLower prompt
  let first := firstTok lower
  let rest := restTok lower
  if lower == "test ai" then
    some [⟨"echo ai-ok", "built-in test command"⟩]
  else if first == "install" && !(rest == "") then
    if config.offline then
      some [install_cmd (installer_for rest config) rest config "install package"]
    else none
  else if ["remove", "uninstall", "delete"].contains first && !(rest == "") then
    let installer := installer_for rest config
    let base :=
      if rContains installer "pacman" then installer ++ " -Rsn " ++ rest
      else installer ++ " -R " ++ rest
    some [⟨apply_pkg_flags base config, "remove package"⟩]
  else if ["open", "launch", "start"].contains first && !(rest == "") then
    if config.offline then
      match build_install_command rest "-S --needed" config repoHit aurHit with
      | some install => some [⟨install, "ensure app is installed"⟩, ⟨rest, "launch app"⟩]
      | none =>
        some [install_cmd (installer_for rest config) rest config "ensure app is installed",
              ⟨rest, "launch app"⟩]
    else none
  else if rContains lower "fix sound" || rContains lower "fix audio" || rContains lower "sound" then
    some [⟨"systemctl --user restart pipewire wireplumber", "restart audio services"⟩,
          ⟨"pactl info", "inspect pulse server state"⟩]
  else if rContains lower "fix internet" || rContains lower "fix network" || rContains lower "network" then
    some [⟨"sudo systemctl restart NetworkManager", "restart network manager"⟩,
          ⟨"nmcli networking on", "enable networking"⟩,
          ⟨"nmcli -t -f DEVICE,STATE d", "list device states"⟩]
  else if rContains lower "fix time" || rContains lower "time sync" || rContains lower "clock" then
    some [⟨"sudo timedatectl set-ntp true", "enable NTP sync"⟩,
          ⟨"timedatectl status", "show time sync status"⟩]
  else if rContains lower "upgrade system" || rContains lower "update system" || first == "upgrade" then
    some [⟨apply_pkg_flags (installer_for "base" config ++ " -Syu") config, "upgrade system packages"⟩]
  else if rContains lower "clean cache" || rContains lower "cleanup" || rContains lower "clear cache" then
    some [⟨apply_pkg_flags (installer_for "base" config ++ " -Sc") config, "clean package cache"⟩]
  else if rContains lower "wifi status" || rContains lower "network status" then
    some [⟨"nmcli general status", "show network status"⟩,
          ⟨"nmcli -t -f DEVICE,STATE d", "list device connectivity"⟩]
  else if rContains lower "fix bluetooth" || rContains lower "bluetooth" then
    some [⟨"sudo systemctl restart bluetooth", "restart bluetooth service"⟩,
          ⟨"bluetoothctl show", "show bluetooth adapter state"⟩]
  else if ["logs", "journal"].contains first && !(rest == "") then
    some [⟨"journalctl -u " ++ rest ++ " --no-pager -n 50", "tail service logs"⟩]
  else none

/-- The confirmation step (`fn confirm`): with the `yes` flag it succeeds
without prompting; otherwise the line read from standard input (here the
`input` parameter) is trimmed and compared against the four affirmative
strings.  The flush and the read itself are modeled as already successful. -/
def confirm (config : ExecConfig) (input : String) : Bool :=
  if config.yes then true
  else
    let t := rTrim input
    t == "y" || t == "Y" || t == "yes" || t == "YES"

/-- Package install/upgrade command detection used by the offline policy
(the `is_pkg_op` test inside `fn ensure_offline_ok`). -/
def is_pkg_op (cmd : String) : Bool :=
  rContains cmd " pacman -S" || rContains cmd " pacman -Syu" || rContains cmd "paru -S"
    || rStartsWith cmd "pacman -S" || rStartsWith cmd "paru -S"
    || rStartsWith cmd "sudo pacman -S"

/-- The offline policy gate (`fn ensure_offline_ok`). -/
def ensure_offline_ok (suggestion : Suggestion) (config : ExecConfig) :
    Except AssistError Unit :=
  if !config.offline then .ok ()
  else if is_pkg_op suggestion.cmd then
    .error (.Unsafe ("offline mode: blocked network command: " ++ suggestion.cmd))
  else .ok ()

/-- The per-suggestion execution loop of `fn handle_prompt` (its `for sugg in
commands` body): offline gate, re-validation, then `run`.  The result is the
list of commands handed to `run`, in order, together with the error that
aborted the batch, if any.  `runO` is the spawn/wait outcome oracle. -/
def executeBatch (runO : String → Except AssistError Unit) (config : ExecConfig) :
    List Suggestion → List String × Option AssistError
  | [] => ([], none)
  | s :: rest =>
    match ensure_offline_ok s config with
    | .error e => ([], some e)
    | .ok _ =>
      match validate s.cmd with
      | .error e => ([], some e)
      | .ok _ =>
        match runO s.cmd with
        | .error e => ([s.cmd], some e)
        | .ok _ =>
          let r := executeBatch runO config rest
          (s.cmd :: r.1, r.2)

/-- Per-line cleaning of the LLM response (`line.trim_matches('\x60').trim()`). -/
def cleanLine (s : String) : String := rTrim (trimBackticks s)

/-- The sanitation loop of `fn llm_translate` (lines 531-542): clean each
line, drop empties, deduplicate with a seen-set while keeping first-seen
order.  The `HashSet` is modeled as the list of strings already kept. -/
def sanitizeGo (seen : List String) : List String → List String
  | [] => []
  | line :: rest =>
    if cleanLine line == "" then sanitizeGo seen rest
    else if seen.contains (cleanLine line) then sanitizeGo seen rest
    else cleanLine line :: sanitizeGo (cleanLine line :: seen) rest

/-- Sanitize a (trimmed) LLM response content string into a command list. -/
def sanitize (content : String) : List String := sanitizeGo [] (rLines content)

/-- Reference first-occurrence deduplication: keep each string the first time
it appears, deleting its later repeats. -/
def firstDedup : List String → List String
  | [] => []
  | a :: l => a :: firstDedup (l.filter (fun b => !(b == a)))
termination_by l => l.length
decreasing_by
  simp only [List.length_cons]
  exact Nat.lt_succ_of_le (List.length_filter_le _ _)

/-- Launch-intent test on a prompt (`fn is_launch_intent`). -/
def is_launch_intent (prompt : String) : Bool :=
  ["open", "launch", "start"].any (fun k => rStartsWith (rLower prompt) k)

/-- Yay-invocation test: the drop condition inside
`fn adjust_commands_for_intent`. -/
def invokesYay (cmd : String) : Bool :=
  rContains cmd " yay" || rStartsWith cmd "yay " || cmd == "yay"

/-- Rewrite the trailing package argument of an official/AUR install command
(`fn rewrite_install_pkg`). -/
def rewrite_install_pkg (cmd : String) (newPkg : String) : Option String :=
  let parts := rSplitWs cmd
  if parts.length < 2 then none
  else
    let tool := parts.headD ""
    let rest := parts.tail
    if !(tool == "pacman") && !(tool == "paru")
        && !(tool == "sudo" && rest.head? == some "pacman") then none
    else
      let installer :=
        if tool == "sudo" && rest.head? == some "pacman" then "sudo pacman" else tool
      let args := if tool == "sudo" && rest.head? == some "pacman" then rest.tail else rest
      if args.isEmpty || !(rStartsWith (args.headD "") "-S") then none
      else some (installer ++ " " ++ String.intercalate " " (args.dropLast ++ [newPkg]))

/-- Single-bare-token test for wrapping launch commands
(`fn needs_launch_wrapper`; the source repeats the validator's allowlist). -/
def needs_launch_wrapper (cmd : String) : Bool :=
  if allowedPrograms.contains (firstTok cmd) then false
  else !(rContainsChar cmd ' ')

/-- One iteration of the intent-adjustment loop of
`fn adjust_commands_for_intent`: `none` when the command is dropped,
otherwise the command that is pushed. -/
def adjustStep (officePkg : Option String) (launchIntent : Bool) (cmd : String) :
    Option String :=
  if invokesYay cmd then none
  else
    match officePkg with
    | some pkg =>
      match rewrite_install_pkg cmd pkg with
      | some rewritten => some rewritten
      | none =>
        if launchIntent && needs_launch_wrapper cmd then some ("launch " ++ cmd) else some cmd
    | none =>
      if launchIntent && needs_launch_wrapper cmd then some ("launch " ++ cmd) else some cmd

/-- The intent-adjustment step (`fn adjust_commands_for_intent`): office
prompts retarget install commands to libreoffice-fresh, yay invocations are
dropped, bare app tokens of launch intents get a `launch` wrapper; when the
filtered output is empty the original list is returned unchanged. -/
def adjust_commands_for_intent (cmds : List String) (prompt : String) : List String :=
  let promptLower := rLower prompt
  let officePkg :=
    if rContains promptLower "word" || rContains promptLower "office"
    then some "libreoffice-fresh" else none
  let out := cmds.filterMap (adjustStep officePkg (is_launch_intent promptLower))
  if out.isEmpty then cmds else out

/-- Extraction attempt on a single command, the body of the loop of
`fn extract_app_name_from_install`: second token of a launch-shaped command,
else last token of a sudo-pacman/pacman/paru install command. -/
def extractOne (cmd : String) : Option String :=
  let parts := rSplitWs cmd
  if parts.length ≥ 2 && parts.headD "" == "launch" then parts[1]?
  else if parts.length ≥ 3 && parts.headD "" == "sudo" && parts[1]? == some "pacman"
      && rStartsWith ((parts[2]?).getD "") "-S" then parts.getLast?
  else if parts.length ≥ 2 && parts.headD "" == "pacman"
      && rStartsWith ((parts[1]?).getD "") "-S" then parts.getLast?
  else if parts.length ≥ 2 && parts.headD "" == "paru"
      && rStartsWith ((parts[1]?).getD "") "-S" then parts.getLast?
  else none

/-- App name extraction (`fn extract_app_name_from_install`): the loop
returns the first command on which extraction succeeds. -/
def extract_app_name_from_install (cmds : List String) : Option String :=
  cmds.findSome? extractOne

/-- The launch-step synthesis at the end of `fn llm_translate` (lines
571-577): on a launch intent with no `launch `-prefixed command, append
`launch <app>` when an app name can be extracted. -/
def append_launch (prompt : String) (remapped : List String) : List String :=
  if is_launch_intent prompt && !(remapped.any (fun c => rStartsWith c "launch ")) then
    match extract_app_name_from_install remapped with
    | some app => remapped ++ ["launch " ++ app]
    | none => remapped
  else remapped

/-- Rebuild an install command from resolved origin plus original flags
(`fn resolve_installer`). -/
def resolve_installer (flagsAndPkg : List String) (pkg : String) (config : ExecConfig)
    (repoHit aurHit : String → Bool) : Option String :=
  let flags := String.intercalate " " flagsAndPkg.dropLast
  match resolve_package pkg config repoHit aurHit with
  | .Repo =>
    some ((if config.no_sudo then "pacman" else "sudo pacman") ++ " " ++ flags ++ " " ++ pkg)
  | .Aur => some ("paru " ++ flags ++ " " ++ pkg)
  | .Unknown =>
    if is_probably_aur pkg then some ("paru " ++ flags ++ " " ++ pkg)
    else some ((if config.no_sudo then "pacman" else "sudo pacman") ++ " " ++ flags ++ " " ++ pkg)
  | .Offline => none

/-- Re-resolve the package of an install-style command and rebuild it with
the resolved installer (`fn rewrite_install_with_resolution`); when the
resolver yields no command the input is returned unchanged. -/
def rewrite_install_with_resolution (cmd : String) (config : ExecConfig)
    (repoHit aurHit : String → Bool) : String :=
  let parts := rSplitWs (rTrim cmd)
  let trySudo :=
    if parts.length ≥ 3 && parts.headD "" == "sudo" && parts[1]? == some "pacman"
        && rStartsWith ((parts[2]?).getD "") "-S" then
      match parts.getLast? with
      | some pkg => resolve_installer (parts.drop 2) pkg config repoHit aurHit
      | none => none
    else none
  match trySudo with
  | some c => c
  | none =>
    let tryPlain :=
      if parts.length ≥ 2 && parts.headD "" == "pacman"
          && rStartsWith ((parts[1]?).getD "") "-S" then
        match parts.getLast? with
        | some pkg => resolve_installer (parts.drop 1) pkg config repoHit aurHit
        | none => none
      else none
    match tryPlain with
    | some c => c
    | none => cmd

/-- A chat-completion choice, carrying the optional message content
(`struct Choice` with its `LlmMessage`). -/
structure Choice where
  content : Option String
deriving DecidableEq

/-- The decoded chat-completion response (`struct ChatResponse`). -/
structure ChatResponse where
  choices : List Choice
deriving DecidableEq

/-- Success test on a validation result. -/
def exceptOk (e : Except AssistError Unit) : Bool :=
  match e with
  | .ok _ => true
  | .error _ => false

/-- The LLM fallback translator (`fn llm_translate`).  The HTTP exchange is
the `net` parameter (a transport error or a decoded response), the
`OPENAI_API_KEY` environment variable is `apiKey`, and the registry lookups
inside install rewriting are the `repoHit`/`aurHit` oracles. -/
def llm_translate (prompt : String) (config : ExecConfig) (apiKey : Option String)
    (net : Except String ChatResponse) (repoHit aurHit : String → Bool) :
    Except AssistError (List String) :=
  if config.offline then .error (.CommandFailed "offline mode: LLM suggestions disabled")
  else
    match apiKey with
    | none => .error (.CommandFailed "OPENAI_API_KEY not set")
    | some _ =>
      match net with
      | .error e => .error (.CommandFailed ("llm call (" ++ e ++ ")"))
      | .ok resp =>
        if resp.choices.isEmpty then .error (.CommandFailed "LLM returned no choices")
        else
          match (resp.choices.head?).bind (fun c => c.content) with
          | none => .error (.CommandFailed "LLM returned no content")
          | some contentRaw =>
            let content := rTrim contentRaw
            if content == "" then .error (.CommandFailed "LLM returned only whitespace")
            else
              let cmds := sanitize content
              if cmds.isEmpty then .error (.CommandFailed "LLM returned an empty command list")
              else
                let safeCmds := cmds.filter (fun c => exceptOk (validate c))
                if safeCmds.isEmpty then
                  .error (.CommandFailed "LLM produced no safe commands (blocked or unsupported)")
                else
                  let adjusted := adjust_commands_for_intent safeCmds prompt
                  let remapped := adjusted.map
                    (fun c => rewrite_install_with_resolution c config repoHit aurHit)
                  .ok (append_launch prompt remapped)

/-- The prompt orchestrator (`fn handle_prompt`), modeled by the list of
commands handed to `run` in order, together with the error that stopped the
run, if any.  Printing is omitted; the confirmation line read from standard
input is the `stdinLine` parameter. -/
def handle_prompt (prompt : String) (config : ExecConfig) (stdinLine : String)
    (apiKey : Option String) (net : Except String ChatResponse)
    (repoHit aurHit : String → Bool) (runO : String → Except AssistError Unit) :
    List String × Option AssistError :=
  match builtin_translate prompt config repoHit aurHit with
  | some commands =>
    if !config.auto then ([], none)
    else if !(confirm config stdinLine) then ([], none)
    else executeBatch runO config commands
  | none =>
    match llm_translate prompt config apiKey net repoHit aurHit with
    | .error e => ([], some e)
    | .ok llmCmds =>
      if !config.auto then ([], none)
      else if !(confirm config stdinLine) then ([], none)
      else executeBatch runO config (llmCmds.map (fun c => ⟨c, "LLM suggestion"⟩))

/-- C1: for every command string `c`, `validate` rejects as `Unsafe` exactly
when `c` contains a blocklisted substring or its first whitespace-delimited
token is outside the eleven-program allowlist, and accepts exactly when
neither condition holds; every rejection is the `Unsafe` variant carrying the
command. -/
theorem validate_accepts_iff (c : String) :
    ((validate c = .ok ()) ↔
      ((∀ b ∈ FORBIDDEN, rContains c b = false) ∧
        allowedPrograms.contains (firstTok c) = true)) ∧
    (validate c = .ok () ∨ validate c = .error (.Unsafe c)) := by
  constructor
  · constructor
    · intro h
      unfold validate at h
      rcases hf : FORBIDDEN.find? (fun bad => rContains c bad) with _ | b
      · constructor
        · intro b hb
          have := List.find?_eq_none.mp hf b hb
          simpa using this
        · rw [hf] at h
          by_cases hall : allowedPrograms.contains (firstTok c) = true
          · exact hall
          · rw [if_neg hall] at h
            exact absurd h (by simp)
      · rw [hf] at h
        simp at h
    · rintro ⟨hforb, hall⟩
      unfold validate
      have hf : FORBIDDEN.find? (fun bad => rContains c bad) = none := by
        apply List.find?_eq_none.mpr
        intro b hb
        simp [hforb b hb]
      rw [hf, if_pos hall]
  · unfold validate
    rcases hf : FORBIDDEN.find? (fun bad => rContains c bad) with _ | b
    · by_cases hall : allowedPrograms.contains (firstTok c) = true
      · left; rw [if_pos hall]
      · right; rw [if_neg hall]
    · right; rfl

/-- C4: for the prompt "install spotify", the builtin translator defers to the
LLM path (returns `none`) when offline is unset, and when offline is set
returns exactly one install suggestion whose installer is paru when
`prefer_paru` is set (the name "spotify" does not end in "-bin"), else pacman
when `no_sudo` is set, else sudo pacman. -/
theorem builtin_install_spotify (cfg : ExecConfig) (repoHit aurHit : String → Bool) :
    builtin_translate "install spotify" cfg repoHit aurHit =
      (if cfg.offline then
        some [⟨(if cfg.prefer_paru then "paru"
                else if cfg.no_sudo then "pacman" else "sudo pacman")
                ++ " -S --needed spotify" ++ (if cfg.yes then " --noconfirm" else ""),
              "install package"⟩]
       else none) ∧
    installer_for "spotify" cfg =
      (if cfg.prefer_paru then "paru" else if cfg.no_sudo then "pacman" else "sudo pacman") := by
  rcases cfg with ⟨d, a, o, y, p, n, v⟩
  cases o <;> cases y <;> cases p <;> cases n <;> exact ⟨rfl, rfl⟩

/-- C5: for the prompt "fix sound", under any config, the builtin translator
returns exactly two suggestions, first the pipewire/wireplumber restart and
then the pactl inspection, in that order. -/
theorem builtin_fix_sound (cfg : ExecConfig) (repoHit aurHit : String → Bool) :
    builtin_translate "fix sound" cfg repoHit aurHit =
      some [⟨"systemctl --user restart pipewire wireplumber", "restart audio services"⟩,
            ⟨"pactl info", "inspect pulse server state"⟩] := rfl

theorem firstDedup_cons (a : String) (l : List String) :
    firstDedup (a :: l) = a :: firstDedup (l.filter (fun b => !(b == a))) := by
  rw [firstDedup]

theorem firstDedup_sublist (l : List String) : (firstDedup l).Sublist l := by
  induction l using firstDedup.induct with
  | case1 => simp [firstDedup]
  | case2 a l ih =>
    rw [firstDedup_cons]
    exact (ih.trans (List.filter_sublist l)).cons₂ a

theorem mem_of_mem_firstDedup {x : String} {l : List String}
    (h : x ∈ firstDedup l) : x ∈ l :=
  (firstDedup_sublist l).mem h

theorem firstDedup_nodup (l : List String) : (firstDedup l).Nodup := by
  induction l using firstDedup.induct with
  | case1 => simp [firstDedup]
  | case2 a l ih =>
    rw [firstDedup_cons]
    refine List.nodup_cons.mpr ⟨?_, ih⟩
    intro hmem
    have hf := List.of_mem_filter (mem_of_mem_firstDedup hmem)
    simp at hf

theorem sanitizeGo_eq (lines : List String) : ∀ seen,
    sanitizeGo seen lines =
      firstDedup (((lines.map cleanLine).filter (fun c => !(c == ""))).filter
        (fun c => !(seen.contains c))) := by
  induction lines with
  | nil => intro seen; simp [sanitizeGo, firstDedup]
  | cons line rest ih =>
    intro seen
    by_cases hc : (cleanLine line == "") = true
    · rw [show sanitizeGo seen (line :: rest) = sanitizeGo seen rest by
        simp only [sanitizeGo]; rw [if_pos hc]]
      rw [ih seen]
      congr 1
      simp [hc]
    · have hc' : (cleanLine line == "") = false := by simpa using hc
      by_cases hs : (seen.contains (cleanLine line)) = true
      · have hsm : cleanLine line ∈ seen := by simpa using hs
        rw [show sanitizeGo seen (line :: rest) = sanitizeGo seen rest by
          simp only [sanitizeGo]; rw [if_neg (by simp [hc']), if_pos hs]]
        rw [ih seen]
        congr 1
        rw [List.map_cons, List.filter_cons, if_pos (by simp [hc']),
          List.filter_cons, if_neg (by simp [hsm])]
      · have hs' : (seen.contains (cleanLine line)) = false := by simpa using hs
        have hsm : cleanLine line ∉ seen := by simpa using hs
        rw [show sanitizeGo seen (line :: rest) =
            cleanLine line :: sanitizeGo (cleanLine line :: seen) rest by
          simp only [sanitizeGo]; rw [if_neg (by simp [hc']), if_neg (by simpa using hs)]]
        rw [List.map_cons, List.filter_cons, if_pos (by simp [hc']),
          List.filter_cons, if_pos (by rw [hs']; rfl)]
        rw [firstDedup_cons, ih (cleanLine line :: seen)]
        congr 2
        simp only [List.filter_filter]
        apply List.filter_congr
        intro a _
        cases h1 : a == cleanLine line <;> cases h2 : seen.contains a <;> cases h3 : a == "" <;>
          simp_all [List.contains_cons]

/-- C6: for every LLM response content string, the sanitation step cleans each
line (stripping surrounding backticks then whitespace), drops lines that
become empty, and keeps each surviving line the first time it is seen,
deleting later exact repeats: the result is exactly the first-occurrence
deduplication of the cleaned non-empty lines, hence contains no duplicates,
no empty strings, and is an order-preserving sublist of the cleaned lines. -/
theorem sanitize_sound (content : String) :
    sanitize content =
      firstDedup (((rLines content).map cleanLine).filter (fun c => !(c == ""))) ∧
    (sanitize content).Nodup ∧
    (∀ s ∈ sanitize content, ¬(s = "")) ∧
    (sanitize content).Sublist
      (((rLines content).map cleanLine).filter (fun c => !(c == ""))) := by
  have h0 : sanitize content =
      firstDedup (((rLines content).map cleanLine).filter (fun c => !(c == ""))) := by
    have h := sanitizeGo_eq (rLines content) []
    simpa [sanitize] using h
  refine ⟨h0, ?_, ?_, ?_⟩
  · rw [h0]; exact firstDedup_nodup _
  · intro s hs
    rw [h0] at hs
    have hf := List.of_mem_filter (mem_of_mem_firstDedup hs)
    intro he
    subst he
    simp at hf
  · rw [h0]; exact firstDedup_sublist _

theorem findSome?_append_of_none {f : String → Option String} {l1 : List String}
    (l2 : List String) (h : ∀ d ∈ l1, f d = none) :
    (l1 ++ l2).findSome? f = l2.findSome? f := by
  induction l1 with
  | nil => rfl
  | cons a l ih =>
    rw [List.cons_append, List.findSome?_cons, h a (by simp)]
    exact ih (fun d hd => h d (by simp [hd]))

/-- C2 counterexample: with the launch-intent prompt "open vim" and two
surviving install commands, the synthesized launch step uses the package of
the FIRST install command ("vim"), not of the last one ("emacs") as the claim
states. -/
theorem append_launch_cx :
    append_launch "open vim" ["sudo pacman -S vim", "sudo pacman -S emacs"] =
      ["sudo pacman -S vim", "sudo pacman -S emacs", "launch vim"] ∧
    append_launch "open vim" ["sudo pacman -S vim", "sudo pacman -S emacs"] ≠
      ["sudo pacman -S vim", "sudo pacman -S emacs", "launch emacs"] := by
  exact ⟨by decide, by decide⟩

/-- C2 (amended): for a launch-intent prompt whose surviving command list
contains no command starting with `launch `, the translator appends exactly
one `launch <pkg>` command where `<pkg>` is extracted from the FIRST command
matching an extraction pattern (second token of a launch-shaped command, else
last token of a pacman/paru/sudo-pacman install command); all commands before
it yield no extraction. -/
theorem append_launch_amended (prompt app cmd : String) (pre post : List String)
    (hintent : is_launch_intent prompt = true)
    (hnol : ((pre ++ cmd :: post).any (fun c => rStartsWith c "launch ")) = false)
    (hpre : ∀ d ∈ pre, extractOne d = none)
    (hcmd : extractOne cmd = some app) :
    append_launch prompt (pre ++ cmd :: post) =
      (pre ++ cmd :: post) ++ ["launch " ++ app] := by
  have hex : extract_app_name_from_install (pre ++ cmd :: post) = some app := by
    unfold extract_app_name_from_install
    rw [findSome?_append_of_none (cmd :: post) hpre, List.findSome?_cons, hcmd]
  unfold append_launch
  rw [hintent, hnol, hex]
  simp

/-- Witness for the amended C2 theorem at a concrete launch prompt. -/
theorem append_launch_amended_witness :
    append_launch "open vim" ["sudo pacman -S vim"] = ["sudo pacman -S vim", "launch vim"] := by
  have h := append_launch_amended "open vim" "vim" "sudo pacman -S vim" [] []
    (by decide) (by decide) (by intro d hd; exact absurd hd (List.not_mem_nil d)) (by decide)
  simpa using h

theorem leadsWith_append (p : List Char) : ∀ s t : List Char,
    leadsWith p s = true → leadsWith p (s ++ t) = true := by
  induction p with
  | nil => intro s t _; rfl
  | cons a ps ih =>
    intro s t h
    cases s with
    | nil => simp [leadsWith] at h
    | cons b ss =>
      simp only [leadsWith, Bool.and_eq_true] at h ⊢
      exact ⟨h.1, ih ss t h.2⟩

theorem not_yay_of_head {c : String} (hch : c.toList.head? ≠ some 'y') :
    ((c == "yay") = false ∧ rStartsWith c "yay " = false) := by
  constructor
  · cases hb : c == "yay"
    · rfl
    · exfalso
      have he : c = "yay" := eq_of_beq hb
      rw [he] at hch
      exact hch rfl
  · unfold rStartsWith
    cases hl : c.toList with
    | nil => rfl
    | cons ch rest =>
      rw [hl] at hch
      have hne : ch ≠ 'y' := by
        intro he; subst he; exact hch rfl
      show leadsWith ('y' :: "ay ".toList) (ch :: rest) = false
      simp only [leadsWith, Bool.and_eq_false_iff]
      left
      simpa using fun he => hne he.symm

theorem head_of_append_firstchar {a b : String} {ch : Char} {rest : List Char}
    (h : a.toList = ch :: rest) : (a ++ b).toList.head? = some ch := by
  show (a ++ b).data.head? = some ch
  rw [String.data_append]
  have he : a.data = ch :: rest := h
  rw [he]
  rfl

theorem not_yay_of_head_char {c : String} {ch : Char} (h : c.toList.head? = some ch)
    (hne : ch ≠ 'y') : ((c == "yay") = false ∧ rStartsWith c "yay " = false) :=
  not_yay_of_head (by rw [h]; simpa using hne)

theorem rewrite_install_pkg_not_yay {cmd pkg r : String}
    (h : rewrite_install_pkg cmd pkg = some r) :
    ((r == "yay") = false ∧ rStartsWith r "yay " = false) := by
  simp only [rewrite_install_pkg] at h
  split at h
  · simp at h
  · split at h
    · simp at h
    · next hg =>
      split at h
      · next h3 =>
        split at h
        · simp at h
        · injection h with h
          rw [← h]
          exact not_yay_of_head_char (head_of_append_firstchar (a := "sudo pacman" ++ " ") rfl)
            (by decide)
      · next h3 =>
        split at h
        · simp at h
        · injection h with h
          rw [← h]
          have h3f : ((rSplitWs cmd).headD "" == "sudo"
              && (rSplitWs cmd).tail.head? == some "pacman") = false := by
            simpa using h3
          rw [h3f] at hg
          simp only [Bool.not_false, Bool.and_true] at hg
          have htool : ((rSplitWs cmd).headD "" == "pacman") = true
              ∨ ((rSplitWs cmd).headD "" == "paru") = true := by
            by_cases hp : ((rSplitWs cmd).headD "" == "pacman") = true
            · exact Or.inl hp
            · right
              by_cases hq : ((rSplitWs cmd).headD "" == "paru") = true
              · exact hq
              · exfalso
                have hpf : ((rSplitWs cmd).headD "" == "pacman") = false := by simpa using hp
                have hqf : ((rSplitWs cmd).headD "" == "paru") = false := by simpa using hq
                exact hg (by rw [hpf, hqf]; rfl)
          rcases htool with hp | hp
          · rw [eq_of_beq hp]
            exact not_yay_of_head_char (head_of_append_firstchar (a := "pacman" ++ " ") rfl)
              (by decide)
          · rw [eq_of_beq hp]
            exact not_yay_of_head_char (head_of_append_firstchar (a := "paru" ++ " ") rfl)
              (by decide)

theorem adjustStep_not_yay {officePkg : Option String} {li : Bool} {cmd c : String}
    (h : adjustStep officePkg li cmd = some c) :
    ((c == "yay") = false ∧ rStartsWith c "yay " = false) := by
  unfold adjustStep at h
  split at h
  · simp at h
  · next hy =>
    have hy' : invokesYay cmd = false := by simpa using hy
    have hA : (cmd == "yay") = false := by
      cases hcy : cmd == "yay"
      · rfl
      · simp [invokesYay, hcy] at hy'
    have hB : rStartsWith cmd "yay " = false := by
      cases hsb : rStartsWith cmd "yay "
      · rfl
      · simp [invokesYay, hsb] at hy'
    split at h
    · next pkg =>
      split at h
      · next rewritten hrw =>
        injection h with h
        rw [← h]
        exact rewrite_install_pkg_not_yay hrw
      · split at h
        · injection h with h
          rw [← h]
          exact not_yay_of_head_char (head_of_append_firstchar (a := "launch ") rfl) (by decide)
        · injection h with h
          rw [← h]
          exact ⟨hA, hB⟩
    · split at h
      · injection h with h
        rw [← h]
        exact not_yay_of_head_char (head_of_append_firstchar (a := "launch ") rfl) (by decide)
      · injection h with h
        rw [← h]
        exact ⟨hA, hB⟩

theorem adjustStep_isSome {officePkg : Option String} {li : Bool} {cmd : String}
    (hy : invokesYay cmd = false) : (adjustStep officePkg li cmd).isSome = true := by
  unfold adjustStep
  rw [if_neg (by simp [hy])]
  split
  · split
    · rfl
    · split <;> rfl
  · split <;> rfl

theorem adjust_no_yay_surviving (cmds : List String) (prompt : String) (c : String)
    (hsurv : ∃ c0 ∈ cmds, invokesYay c0 = false)
    (hc : c ∈ adjust_commands_for_intent cmds prompt) :
    ¬(c = "yay") ∧ rStartsWith c "yay " = false := by
  obtain ⟨c0, hc0m, hc0⟩ := hsurv
  simp only [adjust_commands_for_intent] at hc
  obtain ⟨d, hd⟩ := Option.isSome_iff_exists.mp
    (@adjustStep_isSome (if rContains (rLower prompt) "word"
        || rContains (rLower prompt) "office" then some "libreoffice-fresh" else none)
      (is_launch_intent (rLower prompt)) c0 hc0)
  have hdm : d ∈ cmds.filterMap (adjustStep
      (if rContains (rLower prompt) "word" || rContains (rLower prompt) "office"
        then some "libreoffice-fresh" else none) (is_launch_intent (rLower prompt))) :=
    List.mem_filterMap.mpr ⟨c0, hc0m, hd⟩
  have hne : (cmds.filterMap (adjustStep
      (if rContains (rLower prompt) "word" || rContains (rLower prompt) "office"
        then some "libreoffice-fresh" else none) (is_launch_intent (rLower prompt)))).isEmpty
      = false := by
    cases hl : cmds.filterMap (adjustStep
      (if rContains (rLower prompt) "word" || rContains (rLower prompt) "office"
        then some "libreoffice-fresh" else none) (is_launch_intent (rLower prompt))) with
    | nil => rw [hl] at hdm; exact absurd hdm (List.not_mem_nil d)
    | cons x xs => rfl
  rw [if_neg (by rw [hne]; simp)] at hc
  obtain ⟨a, ham, ha⟩ := List.mem_filterMap.mp hc
  have hp := adjustStep_not_yay ha
  refine ⟨?_, hp.2⟩
  intro he
  subst he
  simp at hp

theorem validate_ok_first_tok {cmd : String} (h : validate cmd = .ok ()) :
    allowedPrograms.contains (firstTok cmd) = true := by
  unfold validate at h
  split at h
  · exact absurd h (by simp)
  · by_cases hall : allowedPrograms.contains (firstTok cmd) = true
    · exact hall
    · rw [if_neg hall] at h
      exact absurd h (by simp)

theorem needs_launch_wrapper_of_validated {cmd : String} (h : validate cmd = .ok ()) :
    needs_launch_wrapper cmd = false := by
  unfold needs_launch_wrapper
  rw [if_pos (validate_ok_first_tok h)]

/-- C3 counterexample: two validated candidate lists refute the claim.  The
validated command "sudo pacman -S yay" invokes yay, so it is dropped; the
empty-output fallback then returns the ORIGINAL list and the yay invocation
survives.  The validated command with a tab separator "pacman -S\x09yay extra"
does not match any drop pattern, and under an office prompt the rewrite
reassembles it with single spaces into "pacman -S yay libreoffice-fresh",
which contains " yay" and therefore invokes yay by the claim's patterns. -/
theorem adjust_yay_cx :
    validate "sudo pacman -S yay" = .ok () ∧
    invokesYay "sudo pacman -S yay" = true ∧
    adjust_commands_for_intent ["sudo pacman -S yay"] "remove helper" = ["sudo pacman -S yay"] ∧
    validate "pacman -S\tyay extra" = .ok () ∧
    invokesYay "pacman -S\tyay extra" = false ∧
    adjust_commands_for_intent ["pacman -S\tyay extra"] "install word" =
      ["pacman -S yay libreoffice-fresh"] ∧
    invokesYay "pacman -S yay libreoffice-fresh" = true :=
  ⟨rfl, by decide, by decide, rfl, by decide, by decide, by decide⟩

/-- C3 (amended): when every candidate invokes yay, the adjustment returns the
input unchanged, so yay commands survive; when at least one candidate does
not invoke yay, no output command equals "yay" or starts with "yay ";
moreover, for validated candidates and a prompt without office intent the
output contains no yay-invoking command at all - the launch wrapper never
fires on a validated command because its first token is allowlisted, so an
output containing " yay" can arise only through the office rewrite of a
validated command whose yay token hides behind non-space whitespace. -/
theorem adjust_yay_amended (cmds : List String) (prompt : String) :
    ((∀ c ∈ cmds, invokesYay c = true) → adjust_commands_for_intent cmds prompt = cmds) ∧
    (∀ c, (∃ c0 ∈ cmds, invokesYay c0 = false) → c ∈ adjust_commands_for_intent cmds prompt →
      ¬(c = "yay") ∧ rStartsWith c "yay " = false) ∧
    ((∀ c ∈ cmds, validate c = .ok ()) → (∃ c0 ∈ cmds, invokesYay c0 = false) →
      rContains (rLower prompt) "word" = false → rContains (rLower prompt) "office" = false →
      ∀ c ∈ adjust_commands_for_intent cmds prompt, invokesYay c = false) := by
  refine ⟨?_, ?_, ?_⟩
  · intro hall
    simp only [adjust_commands_for_intent]
    have hmty : cmds.filterMap (adjustStep
        (if rContains (rLower prompt) "word" || rContains (rLower prompt) "office"
          then some "libreoffice-fresh" else none) (is_launch_intent (rLower prompt))) = [] := by
      rw [List.filterMap_eq_nil_iff]
      intro a ha
      unfold adjustStep
      rw [if_pos (hall a ha)]
    rw [hmty]
    rfl
  · intro c hsurv hc
    exact adjust_no_yay_surviving cmds prompt c hsurv hc
  · intro hvalid hsurv hw ho c hc
    obtain ⟨c0, hc0m, hc0⟩ := hsurv
    simp only [adjust_commands_for_intent] at hc
    have hop : (if rContains (rLower prompt) "word" || rContains (rLower prompt) "office"
        then some "libreoffice-fresh" else (none : Option String)) = none := by
      rw [hw, ho]
      rfl
    rw [hop] at hc
    obtain ⟨d, hd⟩ := Option.isSome_iff_exists.mp
      (@adjustStep_isSome none (is_launch_intent (rLower prompt)) c0 hc0)
    have hdm : d ∈ cmds.filterMap (adjustStep none (is_launch_intent (rLower prompt))) :=
      List.mem_filterMap.mpr ⟨c0, hc0m, hd⟩
    have hne : (cmds.filterMap (adjustStep none (is_launch_intent (rLower prompt)))).isEmpty
        = false := by
      cases hl : cmds.filterMap (adjustStep none (is_launch_intent (rLower prompt))) with
      | nil => rw [hl] at hdm; exact absurd hdm (List.not_mem_nil d)
      | cons x xs => rfl
    rw [if_neg (by rw [hne]; simp)] at hc
    obtain ⟨a, ham, ha⟩ := List.mem_filterMap.mp hc
    have hnw : needs_launch_wrapper a = false :=
      needs_launch_wrapper_of_validated (hvalid a ham)
    simp only [adjustStep] at ha
    by_cases hy : invokesYay a = true
    · rw [if_pos hy] at ha
      exact absurd ha (by simp)
    · rw [if_neg hy] at ha
      rw [if_neg (by simp [hnw])] at ha
      injection ha with ha
      rw [← ha]
      simpa using hy

/-- Witness for the amended C3 theorem at concrete validated inputs. -/
theorem adjust_yay_amended_witness :
    adjust_commands_for_intent ["yay"] "x" = ["yay"] ∧
    (¬("pactl info" = "yay") ∧ rStartsWith "pactl info" "yay " = false) ∧
    invokesYay "pactl info" = false :=
  ⟨(adjust_yay_amended ["yay"] "x").1 (by decide),
   (adjust_yay_amended ["pactl info"] "do stuff").2.1 "pactl info"
     ⟨"pactl info", by decide, by decide⟩ (by decide),
   (adjust_yay_amended ["pactl info"] "fix it").2.2
     (by intro c hc; rw [List.mem_singleton] at hc; subst hc; rfl)
     ⟨"pactl info", by decide, by decide⟩ (by decide) (by decide)
     "pactl info" (by decide)⟩

/-- C7: in auto-run mode without the auto-confirm flag, the confirmation step
accepts exactly the four trimmed strings y, Y, yes, YES; for any other input
line the whole batch is skipped: `handle_prompt` executes nothing, and
whenever a batch was actually produced (builtin match or successful LLM
translation) it returns success. -/
theorem confirm_gate (cfg : ExecConfig) (prompt stdinLine : String) (apiKey : Option String)
    (net : Except String ChatResponse) (repoHit aurHit : String → Bool)
    (runO : String → Except AssistError Unit)
    (hauto : cfg.auto = true) (hyes : cfg.yes = false)
    (hdecl : rTrim stdinLine ∉ (["y", "Y", "yes", "YES"] : List String)) :
    (∀ s, confirm cfg s = true ↔
      (rTrim s = "y" ∨ rTrim s = "Y" ∨ rTrim s = "yes" ∨ rTrim s = "YES")) ∧
    confirm cfg stdinLine = false ∧
    (handle_prompt prompt cfg stdinLine apiKey net repoHit aurHit runO).1 = [] ∧
    (∀ commands, builtin_translate prompt cfg repoHit aurHit = some commands →
      handle_prompt prompt cfg stdinLine apiKey net repoHit aurHit runO = ([], none)) ∧
    (∀ llmCmds, builtin_translate prompt cfg repoHit aurHit = none →
      llm_translate prompt cfg apiKey net repoHit aurHit = .ok llmCmds →
      handle_prompt prompt cfg stdinLine apiKey net repoHit aurHit runO = ([], none)) := by
  have hiff : ∀ s, confirm cfg s = true ↔
      (rTrim s = "y" ∨ rTrim s = "Y" ∨ rTrim s = "yes" ∨ rTrim s = "YES") := by
    intro s
    unfold confirm
    rw [if_neg (by rw [hyes]; simp)]
    simp
    tauto
  have hfalse : confirm cfg stdinLine = false := by
    cases hcf : confirm cfg stdinLine
    · rfl
    · exfalso
      rcases (hiff stdinLine).mp hcf with h | h | h | h <;> exact hdecl (by simp [h])
  refine ⟨hiff, hfalse, ?_, ?_, ?_⟩
  · unfold handle_prompt
    cases hb : builtin_translate prompt cfg repoHit aurHit with
    | some commands => simp [hauto, hfalse]
    | none =>
      cases hl : llm_translate prompt cfg apiKey net repoHit aurHit with
      | error e => simp
      | ok llmCmds => simp [hauto, hfalse]
  · intro commands hb
    unfold handle_prompt
    rw [hb]
    simp [hauto, hfalse]
  · intro llmCmds hb hl
    unfold handle_prompt
    rw [hb, hl]
    simp [hauto, hfalse]

/-- Witness for the C7 theorem: declining with "n" on a builtin batch executes
nothing and succeeds. -/
theorem confirm_gate_witness :
    (handle_prompt "fix sound" (ExecConfig.mk false true false false false false false) "n"
      none (Except.error "no net") (fun _ => false) (fun _ => false)
      (fun _ => Except.ok ())).1 = [] ∧
    confirm (ExecConfig.mk false true false false false false false) "n" = false := by
  have h := confirm_gate (ExecConfig.mk false true false false false false false)
    "fix sound" "n" none (Except.error "no net") (fun _ => false) (fun _ => false)
    (fun _ => Except.ok ()) rfl rfl (by decide)
  exact ⟨h.2.2.1, h.2.1⟩

/-- C8: with the offline flag set, the LLM translator fails immediately with
`CommandFailed` whatever the credential and however the network would have
answered, and the resolver classifies every package as `Offline` without
consulting the registries; without the offline flag, a missing API credential
also fails the LLM translator with `CommandFailed`. -/
theorem offline_gates (cfg : ExecConfig) (prompt pkg : String) (apiKey : Option String)
    (net : Except String ChatResponse) (repoHit aurHit : String → Bool)
    (hoff : cfg.offline = true) :
    llm_translate prompt cfg apiKey net repoHit aurHit =
      .error (.CommandFailed "offline mode: LLM suggestions disabled") ∧
    resolve_package pkg cfg repoHit aurHit = .Offline ∧
    (∀ cfg2 : ExecConfig, cfg2.offline = false →
      llm_translate prompt cfg2 none net repoHit aurHit =
        .error (.CommandFailed "OPENAI_API_KEY not set")) := by
  refine ⟨?_, ?_, ?_⟩
  · unfold llm_translate
    rw [if_pos hoff]
  · unfold resolve_package
    rw [if_pos hoff]
  · intro cfg2 h2
    unfold llm_translate
    rw [if_neg (by rw [h2]; simp)]

/-- Witness for the C8 theorem at a concrete offline config. -/
theorem offline_gates_witness :
    llm_translate "open spotify" (ExecConfig.mk false false true false false false false)
        (some "key") (Except.error "x") (fun _ => true) (fun _ => true) =
      .error (.CommandFailed "offline mode: LLM suggestions disabled") ∧
    resolve_package "spotify" (ExecConfig.mk false false true false false false false)
        (fun _ => true) (fun _ => true) = .Offline := by
  have h := offline_gates (ExecConfig.mk false false true false false false false)
    "open spotify" "spotify" (some "key") (Except.error "x")
    (fun _ => true) (fun _ => true) rfl
  exact ⟨h.1, h.2.1⟩

theorem executeBatch_no_pkg (runO : String → Except AssistError Unit) (cfg : ExecConfig)
    (hoff : cfg.offline = true) :
    ∀ suggs : List Suggestion, ∀ c ∈ (executeBatch runO cfg suggs).1, is_pkg_op c = false := by
  intro suggs
  induction suggs with
  | nil => intro c hc; simp [executeBatch] at hc
  | cons s rest ih =>
    intro c hc
    unfold executeBatch at hc
    cases heo : ensure_offline_ok s cfg with
    | error e => rw [heo] at hc; simp at hc
    | ok u =>
      have hnp : is_pkg_op s.cmd = false := by
        by_cases hpo : is_pkg_op s.cmd = true
        · exfalso
          unfold ensure_offline_ok at heo
          rw [hoff] at heo
          rw [if_neg (by simp), if_pos hpo] at heo
          exact Except.noConfusion heo
        · simpa using hpo
      rw [heo] at hc
      cases hv : validate s.cmd with
      | error e => rw [hv] at hc; simp at hc
      | ok u2 =>
        rw [hv] at hc
        cases hr : runO s.cmd with
        | error e =>
          rw [hr] at hc
          simp at hc
          rw [hc]
          exact hnp
        | ok u3 =>
          rw [hr] at hc
          simp only [List.mem_cons] at hc
          rcases hc with hc | hc
          · rw [hc]; exact hnp
          · exact ih c hc

theorem installer_for_cases (pkg : String) (cfg : ExecConfig) :
    installer_for pkg cfg = "paru" ∨ installer_for pkg cfg = "pacman"
      ∨ installer_for pkg cfg = "sudo pacman" := by
  unfold installer_for
  split
  · exact Or.inl rfl
  · split
    · exact Or.inr (Or.inl rfl)
    · exact Or.inr (Or.inr rfl)

theorem rStartsWith_append_of (s t p : String) (h : rStartsWith s p = true) :
    rStartsWith (s ++ t) p = true := by
  unfold rStartsWith at h ⊢
  show leadsWith p.toList ((s ++ t).data) = true
  rw [String.data_append]
  exact leadsWith_append _ _ _ h

theorem is_pkg_op_install (installer pkg : String) (cfg : ExecConfig) (reason : String)
    (h : installer = "paru" ∨ installer = "pacman" ∨ installer = "sudo pacman") :
    is_pkg_op (install_cmd installer pkg cfg reason).cmd = true := by
  rcases h with h | h | h <;> subst h
  · have h1 : rStartsWith (("paru -S --needed " : String) ++ pkg) "paru -S" = true :=
      rStartsWith_append_of _ _ _ (by decide)
    have h2 : rStartsWith
        (apply_pkg_flags ("paru -S --needed " ++ pkg) cfg) "paru -S" = true := by
      unfold apply_pkg_flags
      split
      · exact rStartsWith_append_of _ _ _ h1
      · exact h1
    simp [install_cmd, is_pkg_op, h2]
  · have h1 : rStartsWith (("pacman -S --needed " : String) ++ pkg) "pacman -S" = true :=
      rStartsWith_append_of _ _ _ (by decide)
    have h2 : rStartsWith
        (apply_pkg_flags ("pacman -S --needed " ++ pkg) cfg) "pacman -S" = true := by
      unfold apply_pkg_flags
      split
      · exact rStartsWith_append_of _ _ _ h1
      · exact h1
    simp [install_cmd, is_pkg_op, h2]
  · have h1 : rStartsWith (("sudo pacman -S --needed " : String) ++ pkg)
        "sudo pacman -S" = true :=
      rStartsWith_append_of _ _ _ (by decide)
    have h2 : rStartsWith
        (apply_pkg_flags ("sudo pacman -S --needed " ++ pkg) cfg) "sudo pacman -S" = true := by
      unfold apply_pkg_flags
      split
      · exact rStartsWith_append_of _ _ _ h1
      · exact h1
    simp [install_cmd, is_pkg_op, h2]

/-- C10: under the offline flag, every package install/upgrade command is
rejected by the offline gate with `Unsafe`; the builtin offline install
suggestions themselves match the package-operation patterns; and in any run
of the execution loop — directly or through `handle_prompt` — no
package-operation command is ever handed to `run`. -/
theorem offline_blocks_pkg_ops (cfg : ExecConfig) (runO : String → Except AssistError Unit)
    (hoff : cfg.offline = true) :
    (∀ s : Suggestion, is_pkg_op s.cmd = true →
      ensure_offline_ok s cfg =
        .error (.Unsafe ("offline mode: blocked network command: " ++ s.cmd))) ∧
    (∀ pkg reason, is_pkg_op (install_cmd (installer_for pkg cfg) pkg cfg reason).cmd = true) ∧
    (∀ suggs : List Suggestion, ∀ c ∈ (executeBatch runO cfg suggs).1, is_pkg_op c = false) ∧
    (∀ prompt stdinLine apiKey net repoHit aurHit,
      ∀ c ∈ (handle_prompt prompt cfg stdinLine apiKey net repoHit aurHit runO).1,
        is_pkg_op c = false) := by
  refine ⟨?_, ?_, executeBatch_no_pkg runO cfg hoff, ?_⟩
  · intro s hpo
    unfold ensure_offline_ok
    rw [hoff]
    rw [if_neg (by simp), if_pos hpo]
  · intro pkg reason
    exact is_pkg_op_install _ pkg cfg reason (installer_for_cases pkg cfg)
  · intro prompt stdinLine apiKey net repoHit aurHit c hc
    unfold handle_prompt at hc
    split at hc
    · split at hc
      · simp at hc
      · split at hc
        · simp at hc
        · exact executeBatch_no_pkg runO cfg hoff _ c hc
    · split at hc
      · simp at hc
      · split at hc
        · simp at hc
        · split at hc
          · simp at hc
          · exact executeBatch_no_pkg runO cfg hoff _ c hc

/-- Witness for the C10 theorem: the offline gate blocks a concrete sudo
pacman install. -/
theorem offline_blocks_pkg_ops_witness :
    ensure_offline_ok (Suggestion.mk "sudo pacman -S --needed spotify" "install package")
        (ExecConfig.mk false true true false false false false) =
      .error (.Unsafe "offline mode: blocked network command: sudo pacman -S --needed spotify") := by
  have h := (offline_blocks_pkg_ops (ExecConfig.mk false true true false false false false)
    (fun _ => Except.ok ()) rfl).1
    (Suggestion.mk "sudo pacman -S --needed spotify" "install package") (by decide)
  exact h

/-- C9: with the offline flag, for a prompt whose leading token is open,
launch or start and whose app text is non-empty, the builtin translator
produces the install-then-launch pair whose second suggestion is the bare app
text with no `launch ` wrapper; the validator rejects that bare text as
`Unsafe` whenever its first token is not allowlisted; and a confirmed
auto-run of the pair executes nothing and aborts with `Unsafe` (at the
offline gate of the install step, before the launch step is reached). -/
theorem builtin_open_offline (prompt r : String) (cfg : ExecConfig)
    (repoHit aurHit : String → Bool) (runO : String → Except AssistError Unit)
    (hoff : cfg.offline = true)
    (hF : firstTok (rLower prompt) = "open" ∨ firstTok (rLower prompt) = "launch"
      ∨ firstTok (rLower prompt) = "start")
    (hR : restTok (rLower prompt) = r)
    (hr : ¬(r = "")) :
    builtin_translate prompt cfg repoHit aurHit =
      some [install_cmd (installer_for r cfg) r cfg "ensure app is installed",
            ⟨r, "launch app"⟩] ∧
    (allowedPrograms.contains (firstTok r) = false → validate r = .error (.Unsafe r)) ∧
    (executeBatch runO cfg
        [install_cmd (installer_for r cfg) r cfg "ensure app is installed",
         ⟨r, "launch app"⟩]).1 = [] ∧
    (∃ m, (executeBatch runO cfg
        [install_cmd (installer_for r cfg) r cfg "ensure app is installed",
         ⟨r, "launch app"⟩]).2 = some (.Unsafe m)) ∧
    (∀ stdinLine apiKey net, cfg.auto = true → confirm cfg stdinLine = true →
      ∃ m, handle_prompt prompt cfg stdinLine apiKey net repoHit aurHit runO
        = ([], some (.Unsafe m))) := by
  have hre : (r == "") = false := by
    cases hq : r == ""
    · rfl
    · exact absurd (eq_of_beq hq) hr
  have hta : (rLower prompt == "test ai") = false := by
    cases hq : rLower prompt == "test ai"
    · rfl
    · exfalso
      have he : rLower prompt = "test ai" := eq_of_beq hq
      rw [he] at hF
      rcases hF with h | h | h <;> exact absurd h (by decide)
  have hbic : build_install_command r "-S --needed" cfg repoHit aurHit = none := by
    unfold build_install_command resolve_package
    rw [if_pos hoff]
  have part1 : builtin_translate prompt cfg repoHit aurHit =
      some [install_cmd (installer_for r cfg) r cfg "ensure app is installed",
            ⟨r, "launch app"⟩] := by
    rcases hF with hF1 | hF1 | hF1
    all_goals
      simp only [builtin_translate, hF1, hR]
      rw [if_neg (by rw [hta]; simp)]
      rw [if_neg (by simp)]
      rw [if_neg (by simp)]
      rw [if_pos (by simp [hre])]
      rw [if_pos hoff]
      rw [hbic]
  have hpo : is_pkg_op
      (install_cmd (installer_for r cfg) r cfg "ensure app is installed").cmd = true :=
    is_pkg_op_install _ r cfg _ (installer_for_cases r cfg)
  have heo : ensure_offline_ok
      (install_cmd (installer_for r cfg) r cfg "ensure app is installed") cfg
      = .error (.Unsafe ("offline mode: blocked network command: "
          ++ (install_cmd (installer_for r cfg) r cfg "ensure app is installed").cmd)) := by
    unfold ensure_offline_ok
    rw [hoff]
    rw [if_neg (by simp), if_pos hpo]
  have hexec : executeBatch runO cfg
      [install_cmd (installer_for r cfg) r cfg "ensure app is installed", ⟨r, "launch app"⟩]
      = ([], some (.Unsafe ("offline mode: blocked network command: "
          ++ (install_cmd (installer_for r cfg) r cfg "ensure app is installed").cmd))) := by
    unfold executeBatch
    rw [heo]
  refine ⟨part1, ?_, by rw [hexec], ⟨_, by rw [hexec]⟩, ?_⟩
  · intro hTok
    unfold validate
    cases hf : FORBIDDEN.find? (fun bad => rContains r bad) with
    | none => rw [if_neg (by rw [hTok]; simp)]
    | some b => rfl
  · intro stdinLine apiKey net hauto2 hconf
    refine ⟨"offline mode: blocked network command: "
        ++ (install_cmd (installer_for r cfg) r cfg "ensure app is installed").cmd, ?_⟩
    simp only [handle_prompt, part1]
    rw [hauto2, hconf]
    simp [hexec]

/-- Witness for the C9 theorem at the concrete offline prompts "open
spotify", "launch spotify" and "start spotify". -/
theorem builtin_open_offline_witness :
    builtin_translate "open spotify" (ExecConfig.mk false true true false false false false)
        (fun _ => false) (fun _ => false) =
      some [Suggestion.mk "sudo pacman -S --needed spotify" "ensure app is installed",
            Suggestion.mk "spotify" "launch app"] ∧
    builtin_translate "launch spotify" (ExecConfig.mk false true true false false false false)
        (fun _ => false) (fun _ => false) =
      some [Suggestion.mk "sudo pacman -S --needed spotify" "ensure app is installed",
            Suggestion.mk "spotify" "launch app"] ∧
    builtin_translate "start spotify" (ExecConfig.mk false true true false false false false)
        (fun _ => false) (fun _ => false) =
      some [Suggestion.mk "sudo pacman -S --needed spotify" "ensure app is installed",
            Suggestion.mk "spotify" "launch app"] ∧
    validate "spotify" = .error (.Unsafe "spotify") := by
  have ho := builtin_open_offline "open spotify" "spotify"
    (ExecConfig.mk false true true false false false false)
    (fun _ => false) (fun _ => false) (fun _ => Except.ok ())
    rfl (by decide) (by decide) (by decide)
  have hl := builtin_open_offline "launch spotify" "spotify"
    (ExecConfig.mk false true true false false false false)
    (fun _ => false) (fun _ => false) (fun _ => Except.ok ())
    rfl (by decide) (by decide) (by decide)
  have hs := builtin_open_offline "start spotify" "spotify"
    (ExecConfig.mk false true true false false false false)
    (fun _ => false) (fun _ => false) (fun _ => Except.ok ())
    rfl (by decide) (by decide) (by decide)
  refine ⟨?_, ?_, ?_, ho.2.1 (by decide)⟩
  · rw [ho.1]; rfl
  · rw [hl.1]; rfl
  · rw [hs.1]; rfl
